import Mathlib

/-!
Shallow embedding of the `swconfig_otb` switch-control package
(`sw.py`, `sw_vlan.py`): session state machine, prompt classification,
echo-verified sending, paged reading, login handshake, and VLAN
reconciliation.  Text lines are modelled as lists of characters
(`Str := List Char`); the serial device is modelled by explicit
scripted environments.  Python integers are `Nat` here (all quantities
involved — VLAN ids, port ids, counters — are non-negative), and
fallible code returns `Option`/`Except`.
-/

/-- A text line, modelled as a list of characters. -/
abbrev Str := List Char

/-- The session states of `sw_state._States` (the `None`/unknown state of
`Sw.state` is modelled as `Option SwState = none`). -/
inductive SwState where
  | PRESS_ANY_KEY
  | LOGIN_USERNAME
  | LOGIN_PASSWORD
  | MORE
  | CONFIG
  | CONFIG_VLAN
  | CONFIG_IF
  | CONFIG_IF_RANGE
  | ADMIN_MAIN
  | USER_MAIN
deriving DecidableEq, Repr

/-- Python `needle in line` (substring containment) on our line model. -/
def strContains (hay needle : Str) : Bool := decide (needle <:+: hay)

/- ===================== sw_vlan._str_to_if_range ===================== -/

/-- Python `str.split(sep)` for a one-character separator: splits on every
occurrence, keeping empty pieces (`"".split(',') == ['']`). -/
def splitOnChar (sep : Char) (s : Str) : List Str :=
  match s with
  | [] => [[]]
  | c :: rest =>
    let r := splitOnChar sep rest
    if c = sep then [] :: r else (c :: r.headD []) :: r.tail

/-- Python `int(s)` restricted to the non-negative numerals that occur in
the switch's interface-range strings: every character a digit, at least
one digit; anything else raises in Python, modelled as `none`. -/
def pyIntNat (s : Str) : Option Nat :=
  if s ≠ [] ∧ s.all (·.isDigit) then
    some (s.foldl (fun n c => n * 10 + (c.toNat - Char.toNat '0')) 0)
  else none

/-- One token's contribution inside `_str_to_if_range`'s comprehension:
the token has already passed the `startswith('gi')` filter; drop the
`'gi'` prefix, split on `'-'`, and expand
`range(int(r[0]), int(r[-1]) + 1)` (`r` is never empty because
`str.split` never returns an empty list). -/
def tokenExpand (t : Str) : Option (List Nat) := do
  let r := splitOnChar '-' (t.drop 2)
  let a ← pyIntNat (r.headD [])
  let b ← pyIntNat (r.getLastD [])
  pure (List.range' a (b + 1 - a))

/-- The body of `_str_to_if_range` after the split on `','`: keep the
tokens starting with `'gi'`, expand each, concatenate.  `none` models a
Python exception escaping the comprehension (a malformed number). -/
def rangeOfTokens (toks : List Str) : Option (List Nat) :=
  ((toks.filter (fun r => ['g', 'i'].isPrefixOf r)).mapM tokenExpand).map List.flatten

/-- `sw_vlan._str_to_if_range`: expand an interface range string such as
`"gi4,gi6,gi8-10,gi16-18,lag2"` into the list of interface numbers. -/
def str_to_if_range (string : Str) : Option (List Nat) :=
  rangeOfTokens (splitOnChar ',' string)

/- ===================== Sw._filter / Sw._recv_once ===================== -/

/-- The errors the session layer can raise: `serial.SerialTimeoutException`
from `_recv_once`, `SwitchBadEchoBudgetExceededError` from `_send`. -/
inductive SwErr where
  | readTimeout
  | badEchoBudgetExceeded
deriving DecidableEq, Repr

/-- Python `line.rstrip("\r\n")`: remove any trailing run of CR/LF. -/
def rstripCRLF (l : Str) : Str :=
  (l.reverse.dropWhile (fun c => c = '\r' || c = '\n')).reverse

/-- First index at which `pat` occurs as a contiguous block of `s`
(`none` if it never occurs). -/
def firstIdxOfSub (pat s : Str) : Option Nat :=
  if pat.isPrefixOf s then some 0
  else match s with
    | [] => none
    | _ :: rest => (firstIdxOfSub pat rest).map (· + 1)

/-- Whether the regex fragment `.*: %.*: .*` matches the text `t`
(the part of a comment after its leading `'*'`): `t` must contain
`": %"` and, after it, `": "`.  Checking after the first `": %"`
occurrence is complete: a `": "` lying after any later occurrence also
lies after the first one. -/
def commentTail (t : Str) : Bool :=
  match firstIdxOfSub ": %".toList t with
  | some j => strContains (t.drop (j + 3)) ": ".toList
  | none => false

/-- The span start of `re.search(r'(\*.*: %.*: .*)', line)`: the leftmost
index holding a `'*'` whose suffix completes the comment pattern.  The
regex's final greedy `.*` makes the matched group always extend to the
end of the line, so the span start determines the whole match. -/
def commentStart : Str → Option Nat
  | [] => none
  | c :: rest =>
    if c = '*' && commentTail rest then some 0
    else (commentStart rest).map (· + 1)

/-- `Sw._filter`: if the line contains a device comment, move the comment
(from its `'*'` to the end of the line) to the comments list and keep
only the text before it. -/
def sw_filter (line : Str) (comments : List Str) : Str × List Str :=
  match commentStart line with
  | some i => (line.take i, comments ++ [line.drop i])
  | none => (line, comments)

/-- The comment `Sw._filter` extracts from a (rstripped) line, if any. -/
def commentOf (line : Str) : Option Str :=
  (commentStart line).map (fun i => line.drop i)

/-- The primary text `Sw._filter` leaves in a (rstripped) line. -/
def primaryOf (line : Str) : Str :=
  match commentStart line with
  | some i => line.take i
  | none => line

/-- Filtering stage of `Sw._recv_once` (its lines before prompt parsing):
rstrip each raw line, excise comments into the comments list, drop the
primary lines that end up empty, and raise a timeout if nothing is left. -/
def recvFilter (raw : List Str) : Except SwErr (List Str × List Str) :=
  let step := raw.foldl
    (fun (acc : List Str × List Str) l =>
      let fl := sw_filter (rstripCRLF l) acc.2
      (acc.1 ++ [fl.1], fl.2))
    ([], [])
  let out := step.1.filter (fun l => l ≠ [])
  if out = [] then .error .readTimeout else .ok (out, step.2)

/- ===================== Sw._parse_prompt ===================== -/

/-- Static data of prompt classification: the per-state needle strings of
`sw_state._States.prompt_needle` and the hostname extraction of
`Sw._determine_hostname` (whose regex internals are kept abstract here:
`_parse_prompt` only branches on its success or failure, and on success
stores the extracted hostname). -/
structure PromptCtx where
  needle : SwState → Str
  extractHostname : Str → Option Str

/-- The hostname-independent states, in the order `_parse_prompt` tries
their needles. -/
def fixedStates : List SwState :=
  [.PRESS_ANY_KEY, .LOGIN_USERNAME, .LOGIN_PASSWORD, .MORE]

/-- The hostname-prefixed states, in the order `_parse_prompt` tries
their needles. -/
def hostStates : List SwState :=
  [.CONFIG, .CONFIG_VLAN, .CONFIG_IF, .CONFIG_IF_RANGE, .ADMIN_MAIN, .USER_MAIN]

/-- The hostname-needle stage of `Sw._parse_prompt` (its second `for`
loop and the final `return None`), once the hostname `h` is known: the
first hostname-prefixed needle matching the last line pops the prompt
line and gives the state; no match leaves the output as is and the
state unknown. -/
def parse_prompt_host (ctx : PromptCtx) (h : Str) (out : List Str) (last_line : Str) :
    Option SwState × List Str × Option Str :=
  match hostStates.find? (fun s => (h ++ ctx.needle s).isPrefixOf last_line) with
  | some s => (some s, out.dropLast, some h)
  | none => (none, out, some h)

/-- `Sw._parse_prompt`: classify the last received line into a state,
possibly removing the prompt line from the output and learning the
hostname.  Returns (state, remaining output, hostname).  The `none` input
case is unreachable: `_recv_once` raises before calling it on empty
output. -/
def parse_prompt (ctx : PromptCtx) (hostname : Option Str) (out : List Str) :
    Option SwState × List Str × Option Str :=
  match out.getLast? with
  | none => (none, out, hostname)
  | some last_line =>
    match fixedStates.find? (fun s => (ctx.needle s).isPrefixOf last_line) with
    | some s => (some s, if s = .MORE then out.dropLast else out, hostname)
    | none =>
      match (match hostname with
             | some h => some h
             | none => ctx.extractHostname last_line : Option Str) with
      | none => (none, out, none)
      | some h => parse_prompt_host ctx h out last_line

/-- Hostname-needle stage of the classification procedure, written from
the specification's words: try Config, ConfigVlan, ConfigIf,
ConfigIfRange, AdminMain, UserMain in order; a match removes the prompt
line (the `true` flag) and sets the state; no match yields Unknown. -/
def classHostLoop (ctx : PromptCtx) (h : Str) (last : Str) :
    Option SwState × Bool × Option Str :=
  if (h ++ ctx.needle .CONFIG).isPrefixOf last then (some .CONFIG, true, some h)
  else if (h ++ ctx.needle .CONFIG_VLAN).isPrefixOf last then (some .CONFIG_VLAN, true, some h)
  else if (h ++ ctx.needle .CONFIG_IF).isPrefixOf last then (some .CONFIG_IF, true, some h)
  else if (h ++ ctx.needle .CONFIG_IF_RANGE).isPrefixOf last then
    (some .CONFIG_IF_RANGE, true, some h)
  else if (h ++ ctx.needle .ADMIN_MAIN).isPrefixOf last then (some .ADMIN_MAIN, true, some h)
  else if (h ++ ctx.needle .USER_MAIN).isPrefixOf last then (some .USER_MAIN, true, some h)
  else (none, false, some h)

/-- The classification procedure exactly as the specification states it,
as a function of the last line only: fixed needles in order PressAnyKey,
LoginUsername, LoginPassword, More (a More match removes its line); if
none match and the hostname is unknown, a failed extraction yields
Unknown and stops; otherwise the hostname-prefixed needles in order.
Returns (state, whether the last line is removed, hostname). -/
def classifySpec (ctx : PromptCtx) (hostname : Option Str) (last : Str) :
    Option SwState × Bool × Option Str :=
  if (ctx.needle .PRESS_ANY_KEY).isPrefixOf last then (some .PRESS_ANY_KEY, false, hostname)
  else if (ctx.needle .LOGIN_USERNAME).isPrefixOf last then
    (some .LOGIN_USERNAME, false, hostname)
  else if (ctx.needle .LOGIN_PASSWORD).isPrefixOf last then
    (some .LOGIN_PASSWORD, false, hostname)
  else if (ctx.needle .MORE).isPrefixOf last then (some .MORE, true, hostname)
  else
    match hostname with
    | some h => classHostLoop ctx h last
    | none =>
      match ctx.extractHostname last with
      | none => (none, false, none)
      | some h => classHostLoop ctx h last

/- ===================== Sw._login / Sw._goto_admin_main_prompt ===================== -/

/-- Result of a session-navigation call: `ok b` models a Python return of
truthiness `b`; `assertFail` models the `assert False` at the end of
`_login` (an uncaught `AssertionError`, not a return value). -/
inductive LoginRes where
  | ok (b : Bool)
  | assertFail
deriving DecidableEq, Repr

/-- Scripted device behaviour for `_login`: the output lines produced by
sending the username, the state classified afterwards, and likewise the
comments and state after sending the password. -/
structure LoginEnv where
  usernameOut : List Str
  afterUsername : Option SwState
  passwordComments : List Str
  afterPassword : Option SwState

/-- Second half of `Sw._login` (the `if state == LOGIN_PASSWORD` block and
the trailing `assert False`): send the password and decide on the
ACCEPTED/REJECTED comment markers; in any other state the control flow
falls through to `assert False`. -/
def sw_login_password (env : LoginEnv) (st : Option SwState) : LoginRes × Option SwState :=
  if st = some .LOGIN_PASSWORD then
    if env.passwordComments.any (fun c => strContains c "ACCEPTED".toList) then
      (.ok true, env.afterPassword)
    else if env.passwordComments.any (fun c => strContains c "REJECTED".toList) then
      (.ok false, env.afterPassword)
    else (.ok false, env.afterPassword)
  else (.assertFail, st)

/-- `Sw._login` over a scripted device, as a function of the state at
entry.  Returns the result and the session state at exit.  The username
branch runs only from `LOGIN_USERNAME`: a rejected username or a
post-username state other than `LOGIN_PASSWORD` returns `False`
(an early `return`); otherwise execution continues with the password
block on the post-username state. -/
def sw_login (env : LoginEnv) (st0 : Option SwState) : LoginRes × Option SwState :=
  if st0 = some .LOGIN_USERNAME then
    if env.usernameOut.any (fun l => strContains l "Incorrect User Name".toList) then
      (.ok false, env.afterUsername)
    else if env.afterUsername ≠ some .LOGIN_PASSWORD then (.ok false, env.afterUsername)
    else sw_login_password env env.afterUsername
  else sw_login_password env st0

/-- Scripted device behaviour for `_goto_admin_main_prompt`: the state
classified after the wake-up newline, and the result truthiness (the
output list of `_send`/`send_cmd` is truthy iff non-empty) and resulting
state of each possible navigation command. -/
structure GotoEnv where
  afterWake : Option SwState
  interruptRes : Bool
  afterInterrupt : Option SwState
  enableRes : Bool
  afterEnable : Option SwState
  endRes : Bool
  afterEnd : Option SwState
  login : LoginEnv

/-- `Sw._goto_admin_main_prompt` over a scripted device: wake up if the
state is unknown or PressAnyKey, return `True` if already at AdminMain,
otherwise run the one applicable navigation action and return the
Python truthiness of `res and self.state == ADMIN_MAIN` (where `res`
stays `None`, hence falsy, if no branch applies). -/
def goto_admin_main_prompt (env : GotoEnv) (st0 : Option SwState) :
    LoginRes × Option SwState :=
  let st := if st0 = none ∨ st0 = some .PRESS_ANY_KEY then env.afterWake else st0
  if st = some .ADMIN_MAIN then (.ok true, st)
  else if st = some .MORE then
    (.ok (env.interruptRes && decide (env.afterInterrupt = some SwState.ADMIN_MAIN)),
     env.afterInterrupt)
  else if st = some .USER_MAIN then
    (.ok (env.enableRes && decide (env.afterEnable = some SwState.ADMIN_MAIN)),
     env.afterEnable)
  else if st = some .CONFIG ∨ st = some .CONFIG_VLAN ∨
          st = some .CONFIG_IF ∨ st = some .CONFIG_IF_RANGE then
    (.ok (env.endRes && decide (env.afterEnd = some SwState.ADMIN_MAIN)), env.afterEnd)
  else if st = some .LOGIN_USERNAME ∨ st = some .LOGIN_PASSWORD then
    match sw_login env.login st with
    | (.ok b, st') => (.ok (b && decide (st' = some SwState.ADMIN_MAIN)), st')
    | (.assertFail, st') => (.assertFail, st')
  else (.ok false, st)

/-- A device script that answers every navigation action the way a
healthy switch does: the pager interrupt, `enable` and `end` land on
AdminMain with non-empty (truthy) output, the username is accepted and
leads to the password prompt, and the password is ACCEPTED, landing on
AdminMain. -/
def wellScripted (env : GotoEnv) : Prop :=
  env.interruptRes = true ∧ env.afterInterrupt = some .ADMIN_MAIN ∧
  env.enableRes = true ∧ env.afterEnable = some .ADMIN_MAIN ∧
  env.endRes = true ∧ env.afterEnd = some .ADMIN_MAIN ∧
  (∀ l ∈ env.login.usernameOut, strContains l "Incorrect User Name".toList = false) ∧
  env.login.afterUsername = some .LOGIN_PASSWORD ∧
  (∃ c ∈ env.login.passwordComments, strContains c "ACCEPTED".toList = true) ∧
  env.login.afterPassword = some .ADMIN_MAIN

/- ===================== Sw._send (echo verification) ===================== -/

/-- Serial-connection state for the echo-checking loop of `_send`:
the session state (unchanged during the loop), the bad-echo counter
`Sw._bad_echo`, the bytes currently buffered for reading, and the bytes
the device will have made available after each successive
`flushInput()` (indexed by the number of flushes so far). -/
structure Conn where
  state : Option SwState
  hostname : Option Str
  badEcho : Nat
  buffer : Str
  flushes : Nat
  arrivals : Nat → Str

/-- `self.sock.read(1)`: pop one buffered byte, or time out empty-handed
(Python returns `""`, modelled `none`). -/
def read1 (c : Conn) : Option Char × Conn :=
  match c.buffer with
  | [] => (none, c)
  | b :: rest => (some b, { c with buffer := rest })

/-- The echo read of `_send`: read one byte and, if it is a carriage
return, discard it and read one more. -/
def readEcho (c : Conn) : Option Char × Conn :=
  let ec := read1 c
  if ec.1 = some '\r' then read1 ec.2 else ec

/-- `self.sock.flushInput()`: discard everything currently buffered; the
next reads see the device's subsequent bytes. -/
def flushInput (c : Conn) : Conn :=
  { c with buffer := c.arrivals c.flushes, flushes := c.flushes + 1 }

/-- `self._bad_echo = self._bad_echo + 1`: the mismatch increment. -/
def bumpBad (c : Conn) : Conn :=
  { c with badEcho := c.badEcho + 1 }

/-- The expected echo computed by `_send` for one sent character:
`'*' if self.state == _States.LOGIN_PASSWORD and echo != char else char`. -/
def expectedEcho (state : Option SwState) (echo : Option Char) (char : Char) : Char :=
  if state = some .LOGIN_PASSWORD ∧ echo ≠ some char then '*' else char

/-- The echo-checking loop of `_send` (with `bypass_echo_check` false):
for each sent character, read its echo (skipping a CR), compare against
the expected echo; on mismatch increment the bad-echo counter, flush
the input buffer, and fail once the counter exceeds the budget
`config.BAD_ECHO_BUDGET`. -/
def sendChars (budget : Nat) (string : Str) (c : Conn) : Except SwErr Conn :=
  match string with
  | [] => .ok c
  | ch :: rest =>
    let ec := readEcho c
    if ec.1 = some (expectedEcho ec.2.state ec.1 ch) then sendChars budget rest ec.2
    else
      let c2 := flushInput (bumpBad ec.2)
      if budget < c2.badEcho then .error .badEchoBudgetExceeded
      else sendChars budget rest c2

/-- The same loop without the budget check: runs to the end and counts
every mismatch.  Its final `badEcho` is the total mismatch count of the
run (used to characterise when `sendChars` fails). -/
def runEcho (string : Str) (c : Conn) : Conn :=
  match string with
  | [] => c
  | ch :: rest =>
    let ec := readEcho c
    if ec.1 = some (expectedEcho ec.2.state ec.1 ch) then runEcho rest ec.2
    else runEcho rest (flushInput (bumpBad ec.2))

/-- The bad-echo counter after sending `string`, budget ignored. -/
def totalBad (string : Str) (c : Conn) : Nat := (runEcho string c).badEcho

/-- `Sw.close`: reset state, hostname and the bad-echo counter so the
instance can be reused. -/
def closeConn (c : Conn) : Conn :=
  { c with state := none, hostname := none, badEcho := 0 }

/- ===================== Sw._recv pagination artifact ===================== -/

/-- `Sw._MORE_MAGIC`: the backspace artifact line and the
cursor-up-and-clear-line escape prefix. -/
def MORE_MAGIC : List Str := ["\x08".toList, "\x1b[A\x1b[2K".toList]

/-- The pagination-artifact step of `_recv` on one continuation read:
`if out[0] == _MORE_MAGIC[0] and out[1].startswith(_MORE_MAGIC[1])`,
then drop the backspace line and strip the escape prefix from the next
line.  Python's `and` short-circuits, so `out[1]` is evaluated exactly
when `out[0]` equals the backspace artifact; each out-of-range access
(`IndexError`) is modelled as `none`. -/
def moreArtifactCheck (out : List Str) : Option (List Str) :=
  match out[0]? with
  | none => none
  | some l0 =>
    if l0 = MORE_MAGIC.getD 0 [] then
      match out[1]? with
      | none => none
      | some l1 =>
        if (MORE_MAGIC.getD 1 []).isPrefixOf l1 then
          some ((out.drop 1).modifyHead (fun l => l.drop (MORE_MAGIC.getD 1 []).length))
        else some out
    else some out

/- ===================== sw_vlan: diffs and update_vlan_conf ===================== -/

/-- The per-port VLAN structure of `_parse_vlans` / `update_vlan_conf`:
`{'untagged': ..., 'tagged': ...}`. -/
structure PortConfig where
  untagged : Option Nat
  tagged : Finset Nat
deriving DecidableEq

/-- The device commands `update_vlan_conf` can issue, plus the initial
`_goto_admin_main_prompt` navigation, in emission order. -/
inductive Cmd where
  | gotoAdminMain
  | config
  | endCfg
  | noVlan (v : Nat)
  | vlan (v : Nat)
  | exitCfg
  | interfaceGi (p : Nat)
  | trunkMode
  | accessMode
  | nativeVlan (v : Nat)
  | accessVlan (v : Nat)
  | trunkRemove (vs : List Nat)
  | trunkAdd (vs : List Nat)
deriving DecidableEq, Repr

/-- `sw_vlan._set_diff`: `(added, removed) = (new - new∩old, old - new∩old)`. -/
def set_diff (old new : Finset Nat) : Finset Nat × Finset Nat :=
  let intersect := new ∩ old
  (new \ intersect, old \ intersect)

/-- `sw_vlan._dict_diff`: the keys present in both dictionaries whose
values differ. -/
def dict_diff (domOld : Finset Nat) (old : Nat → PortConfig)
    (domNew : Finset Nat) (new : Nat → PortConfig) : Finset Nat :=
  (domNew ∩ domOld).filter (fun o => old o ≠ new o)

/-- The command block `update_vlan_conf` emits for one changed port,
paired with a completion flag (Python iterates its sets in unspecified
order; this embedding determinises every set iteration to ascending
order, which the ordering claims do not depend on).  The native-VLAN
choice reproduces Python truthiness: `vids['untagged'] if
vids['untagged'] else DEFAULT_VLAN` falls back on the default for both
`None` and `0`.  `DEFAULT_VLAN` comes from the (absent) `config.py`, so
it is a parameter here.  In the access branch,
`'switchport access vlan %d' % (vids['untagged'])` raises `TypeError`
when `vids['untagged']` is `None`: only `interface` and
`switchport mode access` have been sent at that point, the `exit` never
follows, and the flag is `false` (the exception propagating). -/
def portCmds (defaultVlan : Nat) (portsOld : Nat → PortConfig) (p : Nat)
    (vids : PortConfig) : List Cmd × Bool :=
  if vids.tagged ≠ ∅ then
    (Cmd.interfaceGi p ::
      (([Cmd.trunkMode,
         Cmd.nativeVlan (match vids.untagged with
           | some v => if v = 0 then defaultVlan else v
           | none => defaultVlan)]
        ++ (if (set_diff (portsOld p).tagged vids.tagged).2 ≠ ∅ then
              [Cmd.trunkRemove ((set_diff (portsOld p).tagged vids.tagged).2.sort (· ≤ ·))]
            else [])
        ++ (if (set_diff (portsOld p).tagged vids.tagged).1 ≠ ∅ then
              [Cmd.trunkAdd ((set_diff (portsOld p).tagged vids.tagged).1.sort (· ≤ ·))]
            else []))
       ++ [Cmd.exitCfg]), true)
  else
    match vids.untagged with
    | some v =>
      (Cmd.interfaceGi p :: ([Cmd.accessMode, Cmd.accessVlan v] ++ [Cmd.exitCfg]), true)
    | none => ([Cmd.interfaceGi p, Cmd.accessMode], false)

/-- The changed-port loop of `update_vlan_conf`: emit each port's block
in turn; a port whose block aborts with the `TypeError` stops the loop,
and nothing after its partial block is sent. -/
def emitPorts (defaultVlan : Nat) (portsOld portsNew : Nat → PortConfig) :
    List Nat → List Cmd × Bool
  | [] => ([], true)
  | p :: rest =>
    let pc := portCmds defaultVlan portsOld p (portsNew p)
    if pc.2 then
      let r := emitPorts defaultVlan portsOld portsNew rest
      (pc.1 ++ r.1, r.2)
    else (pc.1, false)

/-- `sw_vlan.update_vlan_conf` as the sequence of device actions it
performs, the current configuration (the result of `_parse_vlans`)
passed in explicitly: diff VLAN sets and port dictionaries; if nothing
changed, do nothing; otherwise navigate to the admin prompt, enter
config mode, delete obsolete VLANs, create new ones (entering and
leaving each VLAN context), reconfigure each changed port, and leave
config mode.  The `Bool` is the completion flag: `false` models the
`TypeError` of `sw_vlan.py` line 81 escaping `update_vlan_conf`, in
which case the final `end` is never sent either. -/
def update_vlan_conf (defaultVlan : Nat)
    (vlansOld : Finset Nat) (domOld : Finset Nat) (portsOld : Nat → PortConfig)
    (vlansNew : Finset Nat) (domNew : Finset Nat) (portsNew : Nat → PortConfig) :
    List Cmd × Bool :=
  let vd := set_diff vlansOld vlansNew
  let portsChanged := dict_diff domOld portsOld domNew portsNew
  if portsChanged = ∅ ∧ vd.1 = ∅ ∧ vd.2 = ∅ then ([], true)
  else
    let ep := emitPorts defaultVlan portsOld portsNew (portsChanged.sort (· ≤ ·))
    (Cmd.gotoAdminMain :: Cmd.config ::
      ((vd.2.sort (· ≤ ·)).map Cmd.noVlan
       ++ (vd.1.sort (· ≤ ·)).flatMap (fun v => [Cmd.vlan v, Cmd.exitCfg])
       ++ ep.1
       ++ (if ep.2 then [Cmd.endCfg] else [])), ep.2)

/-- Whether a command deletes an obsolete VLAN (`no vlan N`). -/
def Cmd.isDelete : Cmd → Bool
  | .noVlan _ => true
  | _ => false

/-- Whether a command creates a VLAN (`vlan N`). -/
def Cmd.isCreate : Cmd → Bool
  | .vlan _ => true
  | _ => false

/-- Whether a command is a port-level assignment referencing VLAN ids
(native or access VLAN, allowed-VLAN add/remove). -/
def Cmd.isPortVlanRef : Cmd → Bool
  | .nativeVlan _ => true
  | .accessVlan _ => true
  | .trunkRemove _ => true
  | .trunkAdd _ => true
  | _ => false

/- ===================== Concrete environments used by theorems ===================== -/

/-- A device script on which `_login`, entered at the username prompt with
a username the switch does not reject, lands in a state other than
LoginPassword (here AdminMain). -/
def loginEnvCex : LoginEnv :=
  { usernameOut := []
  , afterUsername := some .ADMIN_MAIN
  , passwordComments := []
  , afterPassword := none }

/-- A device script whose `enable` answer classifies to AdminMain but whose
output is empty, hence falsy. -/
def gotoEnvCex : GotoEnv :=
  { afterWake := none
  , interruptRes := false, afterInterrupt := none
  , enableRes := false, afterEnable := some .ADMIN_MAIN
  , endRes := false, afterEnd := none
  , login := { usernameOut := [], afterUsername := none
             , passwordComments := [], afterPassword := none } }

/-- A healthy device script: every navigation action lands on AdminMain
with truthy output, and the login succeeds. -/
def gotoEnvGood : GotoEnv :=
  { afterWake := none
  , interruptRes := true, afterInterrupt := some .ADMIN_MAIN
  , enableRes := true, afterEnable := some .ADMIN_MAIN
  , endRes := true, afterEnd := some .ADMIN_MAIN
  , login := { usernameOut := [], afterUsername := some .LOGIN_PASSWORD
             , passwordComments := ["ACCEPTED".toList], afterPassword := some .ADMIN_MAIN } }

/-- A connection whose next buffered bytes echo the string `"ab"`
correctly. -/
def connGood : Conn :=
  { state := none, hostname := none, badEcho := 0
  , buffer := "ab".toList, flushes := 0, arrivals := fun _ => [] }

/-- A connection whose next buffered byte is a wrong echo for `'a'`. -/
def connBad : Conn :=
  { state := none, hostname := none, badEcho := 0
  , buffer := "z".toList, flushes := 0, arrivals := fun _ => [] }

/-- A current port table: every port untagged on VLAN 10. -/
def portOldCex : Nat → PortConfig := fun _ => PortConfig.mk (some 10) ∅

/-- A desired port table whose structure `{untagged: None, tagged: ∅}`
makes the access branch of `update_vlan_conf` raise `TypeError`
(`'%d' % None`, sw_vlan.py line 81). -/
def portNewCex : Nat → PortConfig := fun _ => PortConfig.mk none ∅

/- ===================== Theorems ===================== -/

/-- C8: `_str_to_if_range` keeps exactly the `gi` tokens: tokens are the
comma-split pieces; a non-`gi` token contributes nothing; a `gi` token
carrying a single number `N` contributes `[N]`, and a pair `A-B` the
inclusive interval `[A, B]`; and the documented example expands to
`[4, 6, 8, 9, 10, 16, 17, 18]`. -/
theorem str_to_if_range_spec :
    str_to_if_range "gi4,gi6,gi8-10,gi16-18,lag2".toList
        = some [4, 6, 8, 9, 10, 16, 17, 18]
    ∧ (∀ s, str_to_if_range s = rangeOfTokens (splitOnChar ',' s))
    ∧ (∀ pre t post, (['g', 'i'].isPrefixOf t) = false →
        rangeOfTokens (pre ++ t :: post) = rangeOfTokens (pre ++ post))
    ∧ (∀ t n a, (['g', 'i'].isPrefixOf t) = true →
        splitOnChar '-' (t.drop 2) = [n] → pyIntNat n = some a →
        tokenExpand t = some [a])
    ∧ (∀ t x y a b, (['g', 'i'].isPrefixOf t) = true →
        splitOnChar '-' (t.drop 2) = [x, y] →
        pyIntNat x = some a → pyIntNat y = some b → a ≤ b →
        ∃ l, tokenExpand t = some l ∧ ∀ k, k ∈ l ↔ (a ≤ k ∧ k ≤ b)) := by
  refine ⟨by decide, fun s => rfl, ?_, ?_, ?_⟩
  · intro pre t post h
    simp [rangeOfTokens, List.filter_append, List.filter_cons, h]
  · intro t n a _ hsplit hn
    simp [tokenExpand, hsplit, hn, List.range'_one]
  · intro t x y a b _ hsplit hx hy hab
    refine ⟨List.range' a (b + 1 - a), by simp [tokenExpand, hsplit, hx, hy], ?_⟩
    intro k
    rw [List.mem_range'_1]
    omega

/-- Closed instances of `str_to_if_range_spec`: the `lag2` token does not
contribute, `gi7` contributes `[7]`, and `gi8-10` the interval `[8, 10]`. -/
theorem str_to_if_range_spec_witness :
    rangeOfTokens ([] ++ "lag2".toList :: ["gi4".toList]) = rangeOfTokens ([] ++ ["gi4".toList])
    ∧ tokenExpand "gi7".toList = some [7]
    ∧ ∃ l, tokenExpand "gi8-10".toList = some l ∧ ∀ k, k ∈ l ↔ (8 ≤ k ∧ k ≤ 10) :=
  ⟨str_to_if_range_spec.2.2.1 [] "lag2".toList ["gi4".toList] (by decide),
   str_to_if_range_spec.2.2.2.1 "gi7".toList "7".toList 7 (by decide) (by decide) (by decide),
   str_to_if_range_spec.2.2.2.2 "gi8-10".toList "8".toList "10".toList 8 10
     (by decide) (by decide) (by decide) (by decide) (by decide)⟩

/-- C10: the pagination-artifact check of `_recv` compares the first
continuation line against the backspace artifact and, on a match,
accesses the second line unguarded: on the one-line continuation
`["\x08"]` the access is out of bounds (`none` here, `IndexError` in
Python); with a proper second line the artifacts are stripped; and a
non-matching first line short-circuits, never touching the second. -/
theorem more_artifact_oob :
    moreArtifactCheck ["\x08".toList] = none
    ∧ moreArtifactCheck ["\x08".toList, ("\x1b[A\x1b[2K" ++ "foo").toList]
        = some ["foo".toList]
    ∧ moreArtifactCheck ["A".toList] = some ["A".toList] := by decide

/-- C1: reconciling equal configurations is a no-op: if the desired VLAN
set equals the current one and every port common to both dictionaries
has the same (untagged, tagged) structure, both VLAN diffs and the
changed-port set are empty and `update_vlan_conf` performs no device
action at all (no navigation, no command) and completes. -/
theorem update_vlan_conf_noop (defaultVlan : Nat) (vlansOld domOld domNew : Finset Nat)
    (portsOld portsNew : Nat → PortConfig) (vlansNew : Finset Nat)
    (hv : vlansNew = vlansOld)
    (hp : ∀ p ∈ domNew ∩ domOld, portsNew p = portsOld p) :
    set_diff vlansOld vlansNew = (∅, ∅)
    ∧ dict_diff domOld portsOld domNew portsNew = ∅
    ∧ update_vlan_conf defaultVlan vlansOld domOld portsOld vlansNew domNew portsNew
        = ([], true) := by
  subst hv
  have h1a : (set_diff vlansNew vlansNew).1 = ∅ := by simp [set_diff]
  have h1b : (set_diff vlansNew vlansNew).2 = ∅ := by simp [set_diff]
  have h2 : dict_diff domOld portsOld domNew portsNew = ∅ := by
    rw [dict_diff, Finset.filter_eq_empty_iff]
    intro x hx
    simp [hp x hx]
  refine ⟨?_, h2, ?_⟩
  · rw [Prod.ext_iff]
    exact ⟨h1a, h1b⟩
  · simp [update_vlan_conf, h1a, h1b, h2]

/-- Closed instance of `update_vlan_conf_noop` at a concrete equal pair of
configurations. -/
theorem update_vlan_conf_noop_witness :
    set_diff {10} {10} = (∅, ∅)
    ∧ dict_diff {1} (fun _ => PortConfig.mk none ∅) {1} (fun _ => PortConfig.mk none ∅) = ∅
    ∧ update_vlan_conf 1 {10} {1} (fun _ => PortConfig.mk none ∅)
        {10} {1} (fun _ => PortConfig.mk none ∅) = ([], true) :=
  update_vlan_conf_noop 1 {10} {1} {1} (fun _ => PortConfig.mk none ∅)
    (fun _ => PortConfig.mk none ∅) {10} rfl (fun _ _ => rfl)

/-- C5 counterexample: with the username sent from the username prompt,
not rejected, and a post-username state other than LoginPassword
(AdminMain here), `_login` returns the recoverable failure `False`; it
does not hit its `assert False`. -/
theorem sw_login_protocol_cex :
    sw_login loginEnvCex (some .LOGIN_USERNAME) = (.ok false, some .ADMIN_MAIN)
    ∧ (sw_login loginEnvCex (some .LOGIN_USERNAME)).1 ≠ LoginRes.assertFail := by decide

/-- C5 amended: a post-username state other than LoginPassword is a
recoverable error — `_login` logs and returns `False` to the caller;
the fatal `assert False` is reserved for invoking the handshake outside
the two login states. -/
theorem sw_login_protocol_spec :
    (∀ env, (∀ l ∈ env.usernameOut, strContains l "Incorrect User Name".toList = false) →
        env.afterUsername ≠ some SwState.LOGIN_PASSWORD →
        sw_login env (some .LOGIN_USERNAME) = (.ok false, env.afterUsername))
    ∧ (∀ env st0, st0 ≠ some SwState.LOGIN_USERNAME → st0 ≠ some SwState.LOGIN_PASSWORD →
        sw_login env st0 = (.assertFail, st0)) := by
  constructor
  · intro env hmark hst
    have hany : env.usernameOut.any (fun l => strContains l "Incorrect User Name".toList)
        = false := by
      rw [List.any_eq_false]
      intro l hl hc
      rw [hmark l hl] at hc
      exact absurd hc (by decide)
    rw [sw_login, if_pos rfl, if_neg (by simp only [hany]; decide), if_pos hst]
  · intro env st0 h1 h2
    rw [sw_login, if_neg h1, sw_login_password, if_neg h2]

/-- Closed instances of `sw_login_protocol_spec`. -/
theorem sw_login_protocol_spec_witness :
    sw_login loginEnvCex (some .LOGIN_USERNAME) = (.ok false, loginEnvCex.afterUsername)
    ∧ sw_login loginEnvCex none = (.assertFail, none) :=
  ⟨sw_login_protocol_spec.1 loginEnvCex (fun l hl => by simp [loginEnvCex] at hl) (by decide),
   sw_login_protocol_spec.2 loginEnvCex none (by decide) (by decide)⟩

/-- From either login state, `_login` ends in a `return`, never in its
`assert False`: the username branch returns early unless it lands at the
password prompt, and the password branch always returns. -/
theorem sw_login_no_assert (env : LoginEnv) (st : Option SwState)
    (h : st = some SwState.LOGIN_USERNAME ∨ st = some SwState.LOGIN_PASSWORD) :
    (sw_login env st).1 ≠ LoginRes.assertFail := by
  have hpw : ∀ st2 : Option SwState, st2 = some SwState.LOGIN_PASSWORD →
      (sw_login_password env st2).1 ≠ LoginRes.assertFail := by
    intro st2 h2
    rw [sw_login_password, if_pos h2]
    split_ifs <;> simp
  rcases h with rfl | rfl
  · rw [sw_login, if_pos rfl]
    split_ifs with h1 h2
    · simp
    · simp
    · exact hpw _ (not_ne_iff.mp h2)
  · rw [sw_login, if_neg (by decide)]
    exact hpw _ rfl

/-- C2 counterexample: from UserMain, with a device whose `enable` answer
classifies to AdminMain but produces empty (falsy) output,
`_goto_admin_main_prompt` ends at AdminMain yet returns a falsy result:
success is not equivalent to the final state being AdminMain. -/
theorem goto_admin_main_iff_cex :
    goto_admin_main_prompt gotoEnvCex (some .USER_MAIN)
      = (.ok false, some .ADMIN_MAIN) := by decide

/-- C2 amended: `_goto_admin_main_prompt` succeeds only if the final state
is AdminMain (the converse needs truthy command output); it surfaces
failure as a falsy return, never as the login assertion; and from each
of More, UserMain, Config, ConfigVlan and LoginUsername it reaches
AdminMain and succeeds under a correctly scripted device whose answers
are non-empty. -/
theorem goto_admin_main_spec :
    (∀ env st0 st1, goto_admin_main_prompt env st0 = (.ok true, st1) →
        st1 = some SwState.ADMIN_MAIN)
    ∧ (∀ env st0, (goto_admin_main_prompt env st0).1 ≠ LoginRes.assertFail)
    ∧ (∀ env st0, wellScripted env →
        st0 ∈ ([some SwState.MORE, some SwState.USER_MAIN, some SwState.CONFIG,
                some SwState.CONFIG_VLAN, some SwState.LOGIN_USERNAME] :
               List (Option SwState)) →
        goto_admin_main_prompt env st0 = (.ok true, some SwState.ADMIN_MAIN)) := by
  refine ⟨?_, ?_, ?_⟩
  · intro env st0 st1 h
    simp only [goto_admin_main_prompt] at h
    generalize (if st0 = none ∨ st0 = some SwState.PRESS_ANY_KEY
        then env.afterWake else st0) = st at h
    split_ifs at h with h1 h2 h3 h4 h5
    · simp only [Prod.mk.injEq] at h
      rcases h with ⟨-, rfl⟩
      exact h1
    · simp only [Prod.mk.injEq, LoginRes.ok.injEq, Bool.and_eq_true,
        decide_eq_true_eq] at h
      rcases h with ⟨⟨-, ha⟩, rfl⟩
      exact ha
    · simp only [Prod.mk.injEq, LoginRes.ok.injEq, Bool.and_eq_true,
        decide_eq_true_eq] at h
      rcases h with ⟨⟨-, ha⟩, rfl⟩
      exact ha
    · simp only [Prod.mk.injEq, LoginRes.ok.injEq, Bool.and_eq_true,
        decide_eq_true_eq] at h
      rcases h with ⟨⟨-, ha⟩, rfl⟩
      exact ha
    · rcases hsw : sw_login env.login st with ⟨r, st'⟩
      rw [hsw] at h
      cases r with
      | ok b =>
        simp only [Prod.mk.injEq, LoginRes.ok.injEq, Bool.and_eq_true,
          decide_eq_true_eq] at h
        rcases h with ⟨⟨-, ha⟩, rfl⟩
        exact ha
      | assertFail => simp at h
    · simp at h
  · intro env st0
    simp only [goto_admin_main_prompt]
    generalize (if st0 = none ∨ st0 = some SwState.PRESS_ANY_KEY
        then env.afterWake else st0) = st
    split_ifs with h1 h2 h3 h4 h5 <;> try simp
    rcases hsw : sw_login env.login st with ⟨r, st'⟩
    cases r with
    | ok b => simp
    | assertFail =>
      exfalso
      have := sw_login_no_assert env.login st h5
      rw [hsw] at this
      exact this rfl
  · intro env st0 hw hmem
    obtain ⟨w1, w2, w3, w4, w5, w6, w7, w8, w9, w10⟩ := hw
    have hlogin : sw_login env.login (some SwState.LOGIN_USERNAME)
        = (.ok true, some SwState.ADMIN_MAIN) := by
      have hany : env.login.usernameOut.any
          (fun l => strContains l "Incorrect User Name".toList) = false := by
        rw [List.any_eq_false]
        intro l hl hc
        rw [w7 l hl] at hc
        exact absurd hc (by decide)
      have hacc : env.login.passwordComments.any
          (fun c => strContains c "ACCEPTED".toList) = true := by
        rw [List.any_eq_true]
        obtain ⟨c, hc, h⟩ := w9
        exact ⟨c, hc, h⟩
      rw [sw_login, if_pos rfl, w8, if_neg (by simp only [hany]; decide), if_neg (by simp),
        sw_login_password, if_pos rfl, if_pos hacc, w10]
    simp only [List.mem_cons, List.not_mem_nil, or_false] at hmem
    rcases hmem with rfl | rfl | rfl | rfl | rfl
    · simp [goto_admin_main_prompt, w1, w2]
    · simp [goto_admin_main_prompt, w3, w4]
    · simp [goto_admin_main_prompt, w5, w6]
    · simp [goto_admin_main_prompt, w5, w6]
    · simp [goto_admin_main_prompt, hlogin]

/-- Closed instances of `goto_admin_main_spec` on a healthy script. -/
theorem goto_admin_main_spec_witness :
    goto_admin_main_prompt gotoEnvGood (some .MORE) = (.ok true, some SwState.ADMIN_MAIN)
    ∧ goto_admin_main_prompt gotoEnvGood (some .LOGIN_USERNAME)
        = (.ok true, some SwState.ADMIN_MAIN) :=
  ⟨goto_admin_main_spec.2.2 gotoEnvGood (some .MORE)
     (by unfold wellScripted; decide) (by decide),
   goto_admin_main_spec.2.2 gotoEnvGood (some .LOGIN_USERNAME)
     (by unfold wellScripted; decide) (by decide)⟩

/-- One `_filter` call splits a line into its primary part and, when a
comment is present, appends that comment to the comments list. -/
theorem sw_filter_eq (line : Str) (coms : List Str) :
    sw_filter line coms = (primaryOf line, coms ++ (commentOf line).toList) := by
  rw [sw_filter, primaryOf, commentOf]
  cases h : commentStart line <;> simp [h]

/-- The accumulating fold of `_recv_once`'s comprehension: primaries are
mapped, comments are collected by `filterMap`, both in arrival order. -/
theorem recvFold (raw : List Str) : ∀ acc1 acc2 : List Str,
    raw.foldl
        (fun (acc : List Str × List Str) l =>
          let fl := sw_filter (rstripCRLF l) acc.2
          (acc.1 ++ [fl.1], fl.2))
        (acc1, acc2)
      = (acc1 ++ raw.map (fun l => primaryOf (rstripCRLF l)),
         acc2 ++ raw.filterMap (fun l => commentOf (rstripCRLF l))) := by
  induction raw with
  | nil => intro acc1 acc2; simp
  | cons hd tl ih =>
    intro acc1 acc2
    rw [List.foldl_cons]
    have hstep : (let fl := sw_filter (rstripCRLF hd) ((acc1, acc2) : List Str × List Str).2
          (((acc1, acc2) : List Str × List Str).1 ++ [fl.1], fl.2))
        = (acc1 ++ [primaryOf (rstripCRLF hd)],
           acc2 ++ (commentOf (rstripCRLF hd)).toList) := by
      simp only [sw_filter_eq]
    rw [hstep, ih]
    cases h : commentOf (rstripCRLF hd) <;>
      simp [List.filterMap_cons, h, List.append_assoc]

/-- C4: in the filtering stage of `_recv_once`, every device comment
matched in a raw line is appended to the comments sequence in arrival
order and none is dropped; and the read fails as a timeout exactly when
every raw line's primary part is empty after comment excision. -/
theorem recv_once_filter_spec (raw : List Str) :
    (∀ out coms, recvFilter raw = .ok (out, coms) →
        coms = raw.filterMap (fun l => commentOf (rstripCRLF l)))
    ∧ (recvFilter raw = .error .readTimeout ↔
        ∀ l ∈ raw, primaryOf (rstripCRLF l) = []) := by
  have hfold := recvFold raw [] []
  have hfe : ((raw.map fun l => primaryOf (rstripCRLF l)).filter (fun l => l ≠ [])) = []
      ↔ ∀ l ∈ raw, primaryOf (rstripCRLF l) = [] := by
    rw [List.filter_eq_nil_iff]
    constructor
    · intro h l hl
      have := h _ (List.mem_map_of_mem _ hl)
      simpa using this
    · intro h x hx
      obtain ⟨l, hl, rfl⟩ := List.mem_map.mp hx
      simp [h l hl]
  constructor
  · intro out coms h
    simp only [recvFilter, hfold, List.nil_append] at h
    by_cases hc : ((raw.map fun l => primaryOf (rstripCRLF l)).filter (fun l => l ≠ [])) = []
    · rw [if_pos hc] at h
      exact absurd h (by simp)
    · rw [if_neg hc] at h
      rw [Except.ok.injEq, Prod.mk.injEq] at h
      exact h.2.symm
  · simp only [recvFilter, hfold, List.nil_append]
    split_ifs with hc
    · constructor
      · intro _; exact hfe.mp hc
      · intro _; rfl
    · constructor
      · intro h; exact absurd h (by simp)
      · intro hall; exact absurd (hfe.mpr hall) hc

/-- Closed instance of `recv_once_filter_spec` on the documented example
line: the comment is extracted whole, the primary text `OK` survives. -/
theorem recv_once_filter_spec_witness :
    ["*Jan 13 2000 11:25:20: %Port-5: Port gi6 link down".toList]
      = ["OK*Jan 13 2000 11:25:20: %Port-5: Port gi6 link down\r\n".toList].filterMap
          (fun l => commentOf (rstripCRLF l)) :=
  (recv_once_filter_spec _).1
    ["OK".toList] ["*Jan 13 2000 11:25:20: %Port-5: Port gi6 link down".toList]
    (by rfl)

/-- C6: the expected echo `_send` checks against equals the sent
character in every state other than LoginPassword; in LoginPassword the
literal `'*'` is substituted exactly when the raw echo differs from the
sent character, so an echo is accepted there iff it is the character
itself or `'*'`; and an accepted echo lets the loop continue on the
next character without any error action. -/
theorem expected_echo_spec :
    (∀ st e c, st ≠ some SwState.LOGIN_PASSWORD → expectedEcho st e c = c)
    ∧ (∀ st c, expectedEcho st (some c) c = c)
    ∧ (∀ e c, e ≠ some c → expectedEcho (some SwState.LOGIN_PASSWORD) e c = '*')
    ∧ (∀ e c, e = some (expectedEcho (some SwState.LOGIN_PASSWORD) e c)
        ↔ (e = some c ∨ e = some '*'))
    ∧ (∀ st e c, st ≠ some SwState.LOGIN_PASSWORD →
        (e = some (expectedEcho st e c) ↔ e = some c))
    ∧ (∀ budget ch rest c,
        (readEcho c).1 = some (expectedEcho (readEcho c).2.state (readEcho c).1 ch) →
        sendChars budget (ch :: rest) c = sendChars budget rest (readEcho c).2) := by
  have h1 : ∀ (st : Option SwState) e c, st ≠ some SwState.LOGIN_PASSWORD →
      expectedEcho st e c = c := by
    intro st e c h
    rw [expectedEcho, if_neg]
    rintro ⟨hs, -⟩
    exact h hs
  have h2 : ∀ (st : Option SwState) c, expectedEcho st (some c) c = c := by
    intro st c
    rw [expectedEcho, if_neg]
    rintro ⟨-, hne⟩
    exact hne rfl
  have h3 : ∀ (e : Option Char) c, e ≠ some c →
      expectedEcho (some SwState.LOGIN_PASSWORD) e c = '*' := by
    intro e c h
    rw [expectedEcho, if_pos ⟨rfl, h⟩]
  refine ⟨h1, h2, h3, ?_, ?_, ?_⟩
  · intro e c
    constructor
    · intro h
      by_cases hec : e = some c
      · exact .inl hec
      · right
        rwa [h3 e c hec] at h
    · rintro (h | h)
      · rw [h, h2]
      · by_cases hec : e = some c
        · rw [hec, h2]
        · rw [h3 e c hec]
          exact h
  · intro st e c h
    rw [h1 st e c h]
  · intro budget ch rest c h
    simp only [sendChars]
    rw [if_pos h]

/-- Closed instances of `expected_echo_spec`: accepted echoes in an
ordinary state, the password mask, and one accepted step of the send
loop. -/
theorem expected_echo_spec_witness :
    expectedEcho (some SwState.ADMIN_MAIN) (some 'x') 'a' = 'a'
    ∧ expectedEcho (some SwState.LOGIN_PASSWORD) (some '*') 'a' = '*'
    ∧ sendChars 3 ('a' :: ['b']) connGood = sendChars 3 ['b'] (readEcho connGood).2 :=
  ⟨expected_echo_spec.1 _ _ _ (by decide),
   expected_echo_spec.2.2.1 _ _ (by decide),
   expected_echo_spec.2.2.2.2.2 3 'a' ['b'] connGood (by decide)⟩

/-- The echo read only consumes buffered bytes: every other connection
field is untouched. -/
theorem readEcho_conn (c : Conn) : ∃ buf, (readEcho c).2 = { c with buffer := buf } := by
  rcases c with ⟨st, hn, be, buf, fl, ar⟩
  cases buf with
  | nil => exact ⟨[], rfl⟩
  | cons b rest =>
    by_cases hb : b = '\r'
    · subst hb
      cases rest with
      | nil => exact ⟨[], rfl⟩
      | cons b2 r2 => exact ⟨r2, rfl⟩
    · exact ⟨rest, by simp [readEcho, read1, hb]⟩

/-- The flushed post-increment connection carries the incremented
counter. -/
theorem flush_bump_badEcho (x : Conn) :
    (flushInput (bumpBad x)).badEcho = x.badEcho + 1 := rfl

/-- The bad-echo counter never decreases along the echo loop. -/
theorem runEcho_mono (s : Str) : ∀ c : Conn, c.badEcho ≤ (runEcho s c).badEcho := by
  induction s with
  | nil => intro c; exact le_refl _
  | cons ch rest ih =>
    intro c
    obtain ⟨buf, hbuf⟩ := readEcho_conn c
    have hbe : (readEcho c).2.badEcho = c.badEcho := by rw [hbuf]
    simp only [runEcho]
    by_cases hm : (readEcho c).1 = some (expectedEcho (readEcho c).2.state (readEcho c).1 ch)
    · rw [if_pos hm]
      have := ih (readEcho c).2
      omega
    · rw [if_neg hm]
      have h2 := ih (flushInput (bumpBad (readEcho c).2))
      rw [flush_bump_badEcho] at h2
      omega

/-- If the total mismatch count stays within the budget, `sendChars`
succeeds and its final state is the unbounded run's state. -/
theorem sendChars_ok_of_le (budget : Nat) (s : Str) : ∀ c : Conn,
    (runEcho s c).badEcho ≤ budget → sendChars budget s c = .ok (runEcho s c) := by
  induction s with
  | nil => intro c _; rfl
  | cons ch rest ih =>
    intro c h
    simp only [runEcho] at h
    simp only [sendChars, runEcho]
    by_cases hm : (readEcho c).1 = some (expectedEcho (readEcho c).2.state (readEcho c).1 ch)
    · rw [if_pos hm] at h
      rw [if_pos hm, if_pos hm]
      exact ih _ h
    · rw [if_neg hm] at h
      rw [if_neg hm, if_neg hm]
      have hmono := runEcho_mono rest (flushInput (bumpBad (readEcho c).2))
      rw [if_neg (by omega)]
      exact ih _ h

/-- `sendChars` raises the budget error exactly when the unbounded run
accumulates strictly more mismatches than the budget, at least one of
them new in this call. -/
theorem sendChars_error_iff (budget : Nat) (s : Str) : ∀ c : Conn,
    sendChars budget s c = .error .badEchoBudgetExceeded ↔
      (budget < (runEcho s c).badEcho ∧ c.badEcho < (runEcho s c).badEcho) := by
  induction s with
  | nil =>
    intro c
    constructor
    · intro h
      exact absurd h (by simp [sendChars])
    · rintro ⟨-, h2⟩
      exact absurd h2 (by simp [runEcho])
  | cons ch rest ih =>
    intro c
    obtain ⟨buf, hbuf⟩ := readEcho_conn c
    have hbe : (readEcho c).2.badEcho = c.badEcho := by rw [hbuf]
    simp only [sendChars, runEcho]
    by_cases hm : (readEcho c).1 = some (expectedEcho (readEcho c).2.state (readEcho c).1 ch)
    · rw [if_pos hm, if_pos hm, ih ((readEcho c).2), hbe]
    · rw [if_neg hm, if_neg hm]
      have hmono := runEcho_mono rest (flushInput (bumpBad (readEcho c).2))
      rw [flush_bump_badEcho, hbe] at hmono
      by_cases hb : budget < (flushInput (bumpBad (readEcho c).2)).badEcho
      · rw [if_pos hb]
        rw [flush_bump_badEcho, hbe] at hb
        constructor
        · intro _
          constructor <;> omega
        · intro _
          rfl
      · rw [if_neg hb]
        rw [flush_bump_badEcho, hbe] at hb
        rw [ih _, flush_bump_badEcho, hbe]
        constructor
        · rintro ⟨h1, -⟩
          exact ⟨h1, by omega⟩
        · rintro ⟨h1, -⟩
          exact ⟨h1, by omega⟩

/-- A successful `sendChars` ends exactly in the unbounded run's state. -/
theorem sendChars_ok_eq (budget : Nat) (s : Str) : ∀ c c' : Conn,
    sendChars budget s c = .ok c' → c' = runEcho s c := by
  induction s with
  | nil =>
    intro c c' h
    simp only [sendChars, Except.ok.injEq] at h
    exact h.symm
  | cons ch rest ih =>
    intro c c' h
    simp only [sendChars] at h
    simp only [runEcho]
    by_cases hm : (readEcho c).1 = some (expectedEcho (readEcho c).2.state (readEcho c).1 ch)
    · rw [if_pos hm] at h
      rw [if_pos hm]
      exact ih _ _ h
    · rw [if_neg hm] at h
      rw [if_neg hm]
      by_cases hb : budget < (flushInput (bumpBad (readEcho c).2)).badEcho
      · rw [if_pos hb] at h
        exact absurd h (by simp)
      · rw [if_neg hb] at h
        exact ih _ _ h

/-- C7: every echo mismatch of `_send` increments the bad-echo counter
and flushes unread input; the call fails with the budget error exactly
when the accumulated mismatch count exceeds the budget (and at least
one mismatch is new), while a total within the budget succeeds; the
counter never decreases and persists into the state later commands
start from; and only `close` resets it (with state and hostname). -/
theorem bad_echo_budget_spec :
    (∀ budget ch rest c,
        (readEcho c).1 ≠ some (expectedEcho (readEcho c).2.state (readEcho c).1 ch) →
        sendChars budget (ch :: rest) c =
          (if budget < (readEcho c).2.badEcho + 1 then .error SwErr.badEchoBudgetExceeded
           else sendChars budget rest (flushInput (bumpBad (readEcho c).2))))
    ∧ (∀ budget s c, sendChars budget s c = .error .badEchoBudgetExceeded ↔
        (budget < totalBad s c ∧ c.badEcho < totalBad s c))
    ∧ (∀ budget s c, totalBad s c ≤ budget →
        sendChars budget s c = .ok (runEcho s c))
    ∧ (∀ budget s c c', sendChars budget s c = .ok c' →
        c' = runEcho s c ∧ c.badEcho ≤ c'.badEcho)
    ∧ (∀ c, (closeConn c).badEcho = 0 ∧ (closeConn c).state = none
        ∧ (closeConn c).hostname = none) := by
  refine ⟨?_, ?_, ?_, ?_, ?_⟩
  · intro budget ch rest c h
    simp only [sendChars]
    rw [if_neg h, flush_bump_badEcho]
  · intro budget s c
    exact sendChars_error_iff budget s c
  · intro budget s c h
    exact sendChars_ok_of_le budget s c h
  · intro budget s c c' h
    have he := sendChars_ok_eq budget s c c' h
    refine ⟨he, ?_⟩
    rw [he]
    exact runEcho_mono s c
  · intro c
    exact ⟨rfl, rfl, rfl⟩

/-- Closed instances of `bad_echo_budget_spec`: one mismatching
character against a wrong buffered echo, within the budget. -/
theorem bad_echo_budget_spec_witness :
    sendChars 2 ('a' :: []) connBad =
      (if 2 < (readEcho connBad).2.badEcho + 1 then .error SwErr.badEchoBudgetExceeded
       else sendChars 2 [] (flushInput (bumpBad (readEcho connBad).2)))
    ∧ sendChars 2 ['a'] connBad = .ok (runEcho ['a'] connBad) :=
  ⟨bad_echo_budget_spec.1 2 'a' [] connBad (by decide),
   bad_echo_budget_spec.2.2.1 2 ['a'] connBad (by decide)⟩

/-- The hostname-needle stage agrees with the specification's
first-match-wins description `classHostLoop`, the matched prompt line
being popped from the output. -/
theorem parse_prompt_host_eq (ctx : PromptCtx) (h last : Str) (init : List Str) :
    parse_prompt_host ctx h (init ++ [last]) last =
      ((classHostLoop ctx h last).1,
       if (classHostLoop ctx h last).2.1 then init else init ++ [last],
       (classHostLoop ctx h last).2.2) := by
  have hdrop : (init ++ [last]).dropLast = init := List.dropLast_concat
  by_cases g1 : (h ++ ctx.needle SwState.CONFIG).isPrefixOf last
  · simp [parse_prompt_host, classHostLoop, hostStates, List.find?, hdrop, g1]
  rw [Bool.not_eq_true] at g1
  by_cases g2 : (h ++ ctx.needle SwState.CONFIG_VLAN).isPrefixOf last
  · simp [parse_prompt_host, classHostLoop, hostStates, List.find?, hdrop, g1, g2]
  rw [Bool.not_eq_true] at g2
  by_cases g3 : (h ++ ctx.needle SwState.CONFIG_IF).isPrefixOf last
  · simp [parse_prompt_host, classHostLoop, hostStates, List.find?, hdrop, g1, g2, g3]
  rw [Bool.not_eq_true] at g3
  by_cases g4 : (h ++ ctx.needle SwState.CONFIG_IF_RANGE).isPrefixOf last
  · simp [parse_prompt_host, classHostLoop, hostStates, List.find?, hdrop, g1, g2, g3, g4]
  rw [Bool.not_eq_true] at g4
  by_cases g5 : (h ++ ctx.needle SwState.ADMIN_MAIN).isPrefixOf last
  · simp [parse_prompt_host, classHostLoop, hostStates, List.find?, hdrop, g1, g2, g3, g4, g5]
  rw [Bool.not_eq_true] at g5
  by_cases g6 : (h ++ ctx.needle SwState.USER_MAIN).isPrefixOf last
  · simp [parse_prompt_host, classHostLoop, hostStates, List.find?, hdrop,
      g1, g2, g3, g4, g5, g6]
  rw [Bool.not_eq_true] at g6
  simp [parse_prompt_host, classHostLoop, hostStates, List.find?, hdrop,
    g1, g2, g3, g4, g5, g6]

/-- C3: `_parse_prompt` is exactly the specified classification of the
last line: fixed needles in order PressAnyKey, LoginUsername,
LoginPassword, More (a More match popping its line); if none match and
the hostname is unknown, failed extraction yields Unknown and stops;
otherwise hostname-prefixed needles in order Config, ConfigVlan,
ConfigIf, ConfigIfRange, AdminMain, UserMain, a match popping the
prompt line; no match yields Unknown.  The resulting state depends only
on the last line. -/
theorem parse_prompt_spec (ctx : PromptCtx) (hostname : Option Str) (init : List Str)
    (last : Str) :
    parse_prompt ctx hostname (init ++ [last]) =
      ((classifySpec ctx hostname last).1,
       if (classifySpec ctx hostname last).2.1 then init else init ++ [last],
       (classifySpec ctx hostname last).2.2)
    ∧ (parse_prompt ctx hostname (init ++ [last])).1 = (classifySpec ctx hostname last).1 := by
  have hlast : (init ++ [last]).getLast? = some last := by simp
  have hdrop : (init ++ [last]).dropLast = init := List.dropLast_concat
  have key : parse_prompt ctx hostname (init ++ [last]) =
      ((classifySpec ctx hostname last).1,
       if (classifySpec ctx hostname last).2.1 then init else init ++ [last],
       (classifySpec ctx hostname last).2.2) := by
    by_cases h1 : (ctx.needle SwState.PRESS_ANY_KEY).isPrefixOf last
    · simp [parse_prompt, classifySpec, fixedStates, List.find?, hlast, h1]
    rw [Bool.not_eq_true] at h1
    by_cases h2 : (ctx.needle SwState.LOGIN_USERNAME).isPrefixOf last
    · simp [parse_prompt, classifySpec, fixedStates, List.find?, hlast, h1, h2]
    rw [Bool.not_eq_true] at h2
    by_cases h3 : (ctx.needle SwState.LOGIN_PASSWORD).isPrefixOf last
    · simp [parse_prompt, classifySpec, fixedStates, List.find?, hlast, h1, h2, h3]
    rw [Bool.not_eq_true] at h3
    by_cases h4 : (ctx.needle SwState.MORE).isPrefixOf last
    · simp [parse_prompt, classifySpec, fixedStates, List.find?, hlast, hdrop, h1, h2, h3, h4]
    rw [Bool.not_eq_true] at h4
    cases hostname with
    | none =>
      cases hext : ctx.extractHostname last with
      | none =>
        simp [parse_prompt, classifySpec, fixedStates, List.find?, hlast, h1, h2, h3, h4, hext]
      | some h =>
        simp [parse_prompt, classifySpec, fixedStates, List.find?, hlast,
          h1, h2, h3, h4, hext, parse_prompt_host_eq ctx h last init]
    | some h =>
      simp [parse_prompt, classifySpec, fixedStates, List.find?, hlast,
        h1, h2, h3, h4, parse_prompt_host_eq ctx h last init]
  refine ⟨key, ?_⟩
  rw [key]

/-- Positional separation: if no element of the left part satisfies `Q`
and no element of the right part satisfies `P`, every `P`-index comes
before every `Q`-index in the concatenation. -/
theorem getElem_split_lt {A B : List Cmd} {P Q : Cmd → Bool}
    (hB : ∀ x ∈ B, P x = false) (hA : ∀ x ∈ A, Q x = false) :
    ∀ (i j : Nat) (a b : Cmd), (A ++ B)[i]? = some a → P a = true →
      (A ++ B)[j]? = some b → Q b = true → i < j := by
  intro i j a b hi hPa hj hQb
  have hiA : i < A.length := by
    by_contra hcon
    push_neg at hcon
    rw [List.getElem?_append_right hcon] at hi
    have hmem : a ∈ B := List.getElem?_mem hi
    have := hB a hmem
    simp [hPa] at this
  have hjB : A.length ≤ j := by
    by_contra hcon
    push_neg at hcon
    rw [List.getElem?_append_left hcon] at hj
    have hmem : b ∈ A := List.getElem?_mem hj
    have := hA b hmem
    simp [hQb] at this
  omega

/-- No element of a changed-port command block (complete or aborted) is
a VLAN deletion or a VLAN creation. -/
theorem portCmds_all (dv : Nat) (po : Nat → PortConfig) (p : Nat) (vids : PortConfig) :
    (portCmds dv po p vids).1.all (fun x => !x.isDelete && !x.isCreate) = true := by
  unfold portCmds
  by_cases ht : vids.tagged ≠ ∅
  · rw [if_pos ht]
    split_ifs <;> rfl
  · rw [if_neg ht]
    cases hvu : vids.untagged <;> rfl

/-- Membership form of `portCmds_all`. -/
theorem portCmds_mem {x : Cmd} {dv : Nat} {po : Nat → PortConfig} {p : Nat}
    {vids : PortConfig} (hx : x ∈ (portCmds dv po p vids).1) :
    Cmd.isDelete x = false ∧ Cmd.isCreate x = false := by
  have hall := List.all_eq_true.mp (portCmds_all dv po p vids) x hx
  rw [Bool.and_eq_true] at hall
  exact ⟨by simpa using hall.1, by simpa using hall.2⟩

/-- Deletion commands reference no creation and no port assignment. -/
theorem mem_delSeg {x : Cmd} {l : List Nat} (hx : x ∈ l.map Cmd.noVlan) :
    Cmd.isCreate x = false ∧ Cmd.isPortVlanRef x = false := by
  obtain ⟨a, -, rfl⟩ := List.mem_map.mp hx
  exact ⟨rfl, rfl⟩

/-- Creation blocks consist of `vlan N` and `exit` only. -/
theorem mem_addSeg {x : Cmd} {l : List Nat}
    (hx : x ∈ l.flatMap (fun v => [Cmd.vlan v, Cmd.exitCfg])) :
    Cmd.isDelete x = false ∧ Cmd.isPortVlanRef x = false := by
  obtain ⟨a, -, hx2⟩ := List.mem_flatMap.mp hx
  simp only [List.mem_cons, List.mem_singleton, List.not_mem_nil, or_false] at hx2
  rcases hx2 with rfl | rfl
  · exact ⟨rfl, rfl⟩
  · exact ⟨rfl, rfl⟩

/-- Whatever prefix of the port loop is emitted (the loop may abort on
the `TypeError`), it contains no VLAN deletion and no VLAN creation. -/
theorem mem_emitPorts {x : Cmd} {dv : Nat} {po pn : Nat → PortConfig} : ∀ {l : List Nat},
    x ∈ (emitPorts dv po pn l).1 →
    Cmd.isDelete x = false ∧ Cmd.isCreate x = false := by
  intro l
  induction l with
  | nil =>
    intro hx
    simp [emitPorts] at hx
  | cons p rest ih =>
    intro hx
    simp only [emitPorts] at hx
    by_cases hc : (portCmds dv po p (pn p)).2
    · rw [if_pos hc] at hx
      rcases List.mem_append.mp hx with hx | hx
      · exact portCmds_mem hx
      · exact ih hx
    · rw [if_neg hc] at hx
      exact portCmds_mem hx

/-- A changed port whose desired structure is expressible (a non-empty
tagged set, or an untagged VLAN) gets a complete block, bracketed by
entering and exiting its interface context. -/
theorem portCmds_bracket (dv : Nat) (po : Nat → PortConfig) (p : Nat) {vids : PortConfig}
    (h : vids.tagged ≠ ∅ ∨ vids.untagged ≠ none) :
    (portCmds dv po p vids).2 = true ∧
    ∃ body, (portCmds dv po p vids).1 = Cmd.interfaceGi p :: (body ++ [Cmd.exitCfg]) := by
  unfold portCmds
  by_cases ht : vids.tagged ≠ ∅
  · rw [if_pos ht]
    exact ⟨rfl, _, rfl⟩
  · rw [if_neg ht]
    rcases h with h | h
    · exact absurd h ht
    · cases hvu : vids.untagged with
      | none => exact absurd hvu h
      | some w => exact ⟨rfl, _, rfl⟩

/-- When every port in the loop completes, the loop is the plain
concatenation of the per-port blocks and reports completion. -/
theorem emitPorts_ok {dv : Nat} {po pn : Nat → PortConfig} : ∀ {l : List Nat},
    (∀ p ∈ l, (portCmds dv po p (pn p)).2 = true) →
    emitPorts dv po pn l
      = (l.flatMap (fun p => (portCmds dv po p (pn p)).1), true) := by
  intro l
  induction l with
  | nil =>
    intro _
    rfl
  | cons p rest ih =>
    intro hall
    simp only [emitPorts]
    rw [if_pos (hall p (List.mem_cons_self p rest))]
    rw [ih (fun q hq => hall q (List.mem_cons_of_mem p hq))]
    simp [List.flatMap_cons]

/-- Mapping a member through `flatMap` yields a contiguous block of the
result. -/
theorem infix_of_mem_flatMap {α β : Type} (f : α → List β) {a : α} {l : List α}
    (h : a ∈ l) : f a <:+: l.flatMap f := by
  induction l with
  | nil => exact absurd h (List.not_mem_nil _)
  | cons hd tl ih =>
    rcases List.mem_cons.mp h with rfl | h2
    · exact ⟨[], tl.flatMap f, by simp⟩
    · obtain ⟨s, t, hst⟩ := ih h2
      exact ⟨f hd ++ s, t, by simp [← hst, List.append_assoc]⟩

/-- C9 counterexample: port 5 changes from untagged 10 to the desired
structure {untagged: None, tagged: ∅}, so the access branch evaluates
`'switchport access vlan %d' % None` and raises `TypeError`
(sw_vlan.py line 81): the emitted script stops after
`switchport mode access`, and port 5's commands are not bracketed — no
`exit` (and no `end`) is ever sent. -/
theorem update_vlan_conf_bracket_cex :
    5 ∈ dict_diff {5} portOldCex {5} portNewCex
    ∧ ¬ ∃ body, (Cmd.interfaceGi 5 :: (body ++ [Cmd.exitCfg])) <:+:
        (update_vlan_conf 1 {10} {5} portOldCex {10} {5} portNewCex).1 := by
  have hd : dict_diff {5} portOldCex {5} portNewCex = {5} := by decide
  have hsd : set_diff {10} {10} = ((∅ : Finset Nat), (∅ : Finset Nat)) := by decide
  have hL : (update_vlan_conf 1 {10} {5} portOldCex {10} {5} portNewCex).1
      = [Cmd.gotoAdminMain, Cmd.config, Cmd.interfaceGi 5, Cmd.accessMode] := by
    simp only [update_vlan_conf]
    rw [if_neg (by rw [hd]; decide)]
    simp only [hd, hsd, Finset.sort_singleton, Finset.sort_empty]
    decide
  constructor
  · decide
  · rintro ⟨body, s, t, heq⟩
    rw [hL] at heq
    have hm : Cmd.exitCfg ∈ s ++ (Cmd.interfaceGi 5 :: (body ++ [Cmd.exitCfg])) ++ t := by
      simp
    rw [heq] at hm
    exact absurd hm (by decide)

/-- C9 amended: in the command sequence `update_vlan_conf` actually
emits (which the `TypeError` of sw_vlan.py line 81 may truncate), every
obsolete-VLAN deletion precedes every VLAN creation and every VLAN
creation precedes every port-level command referencing a VLAN; and
provided every changed port's desired structure is expressible (a
non-empty tagged set or an untagged VLAN — otherwise the access branch
raises before `exit`), each changed port's commands form a contiguous
block bracketed by entering and exiting its interface context. -/
theorem update_vlan_conf_order (defaultVlan : Nat)
    (vlansOld domOld : Finset Nat) (portsOld : Nat → PortConfig)
    (vlansNew domNew : Finset Nat) (portsNew : Nat → PortConfig)
    (L : List Cmd)
    (hL : L = (update_vlan_conf defaultVlan vlansOld domOld portsOld
                vlansNew domNew portsNew).1) :
    (∀ (i j : Nat) (a b : Cmd), L[i]? = some a → Cmd.isDelete a = true →
        L[j]? = some b → Cmd.isCreate b = true → i < j)
    ∧ (∀ (i j : Nat) (a b : Cmd), L[i]? = some a → Cmd.isCreate a = true →
        L[j]? = some b → Cmd.isPortVlanRef b = true → i < j)
    ∧ ((∀ q ∈ dict_diff domOld portsOld domNew portsNew,
          (portsNew q).tagged ≠ ∅ ∨ (portsNew q).untagged ≠ none) →
        ∀ p ∈ dict_diff domOld portsOld domNew portsNew,
          ∃ body, (Cmd.interfaceGi p :: (body ++ [Cmd.exitCfg])) <:+: L) := by
  have hpair : update_vlan_conf defaultVlan vlansOld domOld portsOld vlansNew domNew portsNew
      = (if dict_diff domOld portsOld domNew portsNew = ∅ ∧
            (set_diff vlansOld vlansNew).1 = ∅ ∧ (set_diff vlansOld vlansNew).2 = ∅
         then (([] : List Cmd), true)
         else
           (Cmd.gotoAdminMain :: Cmd.config ::
             (((set_diff vlansOld vlansNew).2.sort (· ≤ ·)).map Cmd.noVlan
              ++ ((set_diff vlansOld vlansNew).1.sort (· ≤ ·)).flatMap
                   (fun v => [Cmd.vlan v, Cmd.exitCfg])
              ++ (emitPorts defaultVlan portsOld portsNew
                    ((dict_diff domOld portsOld domNew portsNew).sort (· ≤ ·))).1
              ++ (if (emitPorts defaultVlan portsOld portsNew
                       ((dict_diff domOld portsOld domNew portsNew).sort (· ≤ ·))).2
                  then [Cmd.endCfg] else [])),
            (emitPorts defaultVlan portsOld portsNew
              ((dict_diff domOld portsOld domNew portsNew).sort (· ≤ ·))).2)) := rfl
  by_cases hno : dict_diff domOld portsOld domNew portsNew = ∅ ∧
      (set_diff vlansOld vlansNew).1 = ∅ ∧ (set_diff vlansOld vlansNew).2 = ∅
  · have hL2 : L = [] := by rw [hL, hpair, if_pos hno]
    subst hL2
    refine ⟨?_, ?_, ?_⟩
    · intro i j a b hi _ _ _
      simp at hi
    · intro i j a b hi _ _ _
      simp at hi
    · intro _ p hp
      rw [hno.1] at hp
      exact absurd hp (Finset.not_mem_empty p)
  · have hL2 : L = Cmd.gotoAdminMain :: Cmd.config ::
        (((set_diff vlansOld vlansNew).2.sort (· ≤ ·)).map Cmd.noVlan
         ++ ((set_diff vlansOld vlansNew).1.sort (· ≤ ·)).flatMap
              (fun v => [Cmd.vlan v, Cmd.exitCfg])
         ++ (emitPorts defaultVlan portsOld portsNew
               ((dict_diff domOld portsOld domNew portsNew).sort (· ≤ ·))).1
         ++ (if (emitPorts defaultVlan portsOld portsNew
                  ((dict_diff domOld portsOld domNew portsNew).sort (· ≤ ·))).2
             then [Cmd.endCfg] else [])) := by
      rw [hL, hpair, if_neg hno]
    subst hL2
    set D := ((set_diff vlansOld vlansNew).2.sort (· ≤ ·)).map Cmd.noVlan with hD
    set Aseg := ((set_diff vlansOld vlansNew).1.sort (· ≤ ·)).flatMap
        (fun v => [Cmd.vlan v, Cmd.exitCfg]) with hAseg
    set EP := emitPorts defaultVlan portsOld portsNew
        ((dict_diff domOld portsOld domNew portsNew).sort (· ≤ ·)) with hEP
    refine ⟨?_, ?_, ?_⟩
    · intro i j a b hi hPa hj hQb
      have hsplit : Cmd.gotoAdminMain :: Cmd.config ::
            (D ++ Aseg ++ EP.1 ++ (if EP.2 then [Cmd.endCfg] else []))
          = ([Cmd.gotoAdminMain, Cmd.config] ++ D)
            ++ (Aseg ++ (EP.1 ++ (if EP.2 then [Cmd.endCfg] else []))) := by
        simp [List.append_assoc]
      rw [hsplit] at hi hj
      refine getElem_split_lt ?_ ?_ i j a b hi hPa hj hQb
      · intro x hx
        rcases List.mem_append.mp hx with hx | hx
        · rw [hAseg] at hx
          exact (mem_addSeg hx).1
        · rcases List.mem_append.mp hx with hx | hx
          · rw [hEP] at hx
            exact (mem_emitPorts hx).1
          · split_ifs at hx
            · rw [List.mem_singleton] at hx
              subst hx
              rfl
            · exact absurd hx (List.not_mem_nil _)
      · intro x hx
        rcases List.mem_append.mp hx with hx | hx
        · simp only [List.mem_cons, List.mem_singleton, List.not_mem_nil, or_false] at hx
          rcases hx with rfl | rfl <;> rfl
        · rw [hD] at hx
          exact (mem_delSeg hx).1
    · intro i j a b hi hPa hj hQb
      have hsplit : Cmd.gotoAdminMain :: Cmd.config ::
            (D ++ Aseg ++ EP.1 ++ (if EP.2 then [Cmd.endCfg] else []))
          = (([Cmd.gotoAdminMain, Cmd.config] ++ D) ++ Aseg)
            ++ (EP.1 ++ (if EP.2 then [Cmd.endCfg] else [])) := by
        simp [List.append_assoc]
      rw [hsplit] at hi hj
      refine getElem_split_lt ?_ ?_ i j a b hi hPa hj hQb
      · intro x hx
        rcases List.mem_append.mp hx with hx | hx
        · rw [hEP] at hx
          exact (mem_emitPorts hx).2
        · split_ifs at hx
          · rw [List.mem_singleton] at hx
            subst hx
            rfl
          · exact absurd hx (List.not_mem_nil _)
      · intro x hx
        rcases List.mem_append.mp hx with hx | hx
        · rcases List.mem_append.mp hx with hx | hx
          · simp only [List.mem_cons, List.mem_singleton, List.not_mem_nil, or_false] at hx
            rcases hx with rfl | rfl <;> rfl
          · rw [hD] at hx
            exact (mem_delSeg hx).2
        · rw [hAseg] at hx
          exact (mem_addSeg hx).2
    · intro hall p hp
      have hok : ∀ q ∈ (dict_diff domOld portsOld domNew portsNew).sort (· ≤ ·),
          (portCmds defaultVlan portsOld q (portsNew q)).2 = true := by
        intro q hq
        exact (portCmds_bracket defaultVlan portsOld q (hall q (by simpa using hq))).1
      have hEPok : EP = (((dict_diff domOld portsOld domNew portsNew).sort (· ≤ ·)).flatMap
          (fun q => (portCmds defaultVlan portsOld q (portsNew q)).1), true) := by
        rw [hEP]
        exact emitPorts_ok hok
      have hmem : p ∈ (dict_diff domOld portsOld domNew portsNew).sort (· ≤ ·) := by
        simpa using hp
      obtain ⟨-, body, hb⟩ := portCmds_bracket defaultVlan portsOld p (hall p hp)
      have hinf : (portCmds defaultVlan portsOld p (portsNew p)).1 <:+: EP.1 := by
        rw [hEPok]
        exact infix_of_mem_flatMap
          (fun q => (portCmds defaultVlan portsOld q (portsNew q)).1) hmem
      have hwrap : EP.1 <:+: Cmd.gotoAdminMain :: Cmd.config ::
          (D ++ Aseg ++ EP.1 ++ (if EP.2 then [Cmd.endCfg] else [])) :=
        ⟨Cmd.gotoAdminMain :: Cmd.config :: (D ++ Aseg),
         (if EP.2 then [Cmd.endCfg] else []), by simp [List.append_assoc]⟩
      rw [hb] at hinf
      exact ⟨body, hinf.trans hwrap⟩

/-- Closed instance of `update_vlan_conf_order`: the changed port 5,
whose desired structure carries an untagged VLAN, gets a bracketed
interface block in the emitted script. -/
theorem update_vlan_conf_order_witness :
    ∃ body, (Cmd.interfaceGi 5 :: (body ++ [Cmd.exitCfg])) <:+:
      (update_vlan_conf 1 {10} {5} (fun _ => PortConfig.mk (some 10) ∅)
        {20} {5} (fun _ => PortConfig.mk (some 20) ∅)).1 :=
  (update_vlan_conf_order 1 {10} {5} (fun _ => PortConfig.mk (some 10) ∅)
      {20} {5} (fun _ => PortConfig.mk (some 20) ∅) _ rfl).2.2
    (by decide) 5 (by decide)
